import Mathlib

/-!
Verification of the coin-alert Telegram bot (`src/bot.py`) against its
specification.

The Python source is shallowly embedded: each relevant function of
`bot.py` is translated into an executable Lean definition, numbers that
the bot treats as exact data (prices, units, PnL) are modelled over `ℚ`,
Python `float()` parsing is modelled by an explicit grammar that keeps the
distinction between finite values, infinities and NaN, and fallible
operations return `Except`/`Option`.  Database collections are modelled as
explicit state (lists of records) threaded through the operations.

The file is laid out as definitions first (the embedding of `bot.py`),
then the theorems about them.
-/

namespace CoinBot

/-! ## Python string primitives

`str.strip()` is modelled by `String.trim` (ASCII whitespace; the bot only
feeds it chat text), `str.upper()` by an ASCII uppercase map, and the two
regular expressions of `bot.py` by decidable matchers.  Python's `re`
anchors `$` either at the end of the string or just before a single
trailing newline; both matchers keep that behaviour. -/

/-- ASCII uppercase of one character, as Python `str.upper()` acts on the
ASCII range (`bot.py` symbols are ASCII tickers). -/
def pyUpperChar (c : Char) : Char :=
  if 'a' ≤ c ∧ c ≤ 'z' then Char.ofNat (c.toNat - 32) else c

/-- `s.strip()` over ASCII whitespace: drop whitespace from both ends. -/
def pyStrip (s : String) : String :=
  ⟨((s.data.dropWhile Char.isWhitespace).reverse.dropWhile Char.isWhitespace).reverse⟩

/-- `s.upper()` over the ASCII range. -/
def pyUpper (s : String) : String :=
  ⟨s.data.map pyUpperChar⟩

/-- The base58 character class of `bot.py`'s pattern
`[1-9A-HJ-NP-Za-km-z]` (digits 1-9 and letters excluding I, O, l, 0). -/
def isBase58 (c : Char) : Bool :=
  ('1' ≤ c && c ≤ '9') || ('A' ≤ c && c ≤ 'H') || ('J' ≤ c && c ≤ 'N') ||
  ('P' ≤ c && c ≤ 'Z') || ('a' ≤ c && c ≤ 'k') || ('m' ≤ c && c ≤ 'z')

/-- `re.match('^[1-9A-HJ-NP-Za-km-z]+$', s) is not None`.  Python's `$`
also matches just before one trailing newline, so a base58 run followed by
a single final `'\n'` matches too. -/
def reMatchBase58 (s : String) : Bool :=
  (decide (1 ≤ s.data.length) && s.data.all isBase58) ||
    (match s.data.getLast? with
      | some c => c == '\n' &&
          (decide (1 ≤ s.data.dropLast.length) && s.data.dropLast.all isBase58)
      | none => false)

/-- `validate_sol_address` (bot.py lines 80-88): length must be 43 or 44
and the base58 pattern must match. -/
def validate_sol_address (address : String) : Bool :=
  if address.length ≠ 43 ∧ address.length ≠ 44 then false
  else reMatchBase58 address

/-- One character of `[A-Z]`. -/
def isUpperAZ (c : Char) : Bool := 'A' ≤ c && c ≤ 'Z'

/-- `re.match(r'^[A-Z]{1,5}$', s) is not None` (bot.py line 416), with the
same trailing-newline behaviour of `$`. -/
def reMatchSymbol (s : String) : Bool :=
  (decide (1 ≤ s.data.length) && decide (s.data.length ≤ 5) && s.data.all isUpperAZ) ||
    (match s.data.getLast? with
      | some c => c == '\n' &&
          (decide (1 ≤ s.data.dropLast.length) && decide (s.data.dropLast.length ≤ 5) &&
            s.data.dropLast.all isUpperAZ)
      | none => false)

/-! ## PnL engine (`calculate_profit`, bot.py lines 126-144)

Prices and unit counts are modelled over `ℚ`; the Python `dict` of current
prices is an association list with first-match lookup. -/

/-- A logged Call, with the fields `log_call` persists (bot.py 172-187). -/
structure CallRec where
  user_id : Nat
  crypto_symbol : String
  action : String
  number_of_units : ℚ
  wallet_id : String
  price_at_call : ℚ
  timestamp : Nat
deriving DecidableEq, Repr

/-- `symbol in current_prices` / `current_prices[symbol]` over the
association-list model of the Python dict. -/
def lookupPrice (current_prices : List (String × ℚ)) (symbol : String) : Option ℚ :=
  (current_prices.find? (fun p => p.1 == symbol)).map (fun p => p.2)

/-- `calculate_profit` (bot.py lines 126-144). -/
def calculate_profit (call : CallRec) (current_prices : List (String × ℚ)) : ℚ :=
  match lookupPrice current_prices call.crypto_symbol with
  | none => 0
  | some current_price =>
    if call.action == "BUY" then
      (current_price - call.price_at_call) * call.number_of_units
    else if call.action == "SELL" then
      (call.price_at_call - current_price) * call.number_of_units
    else 0

/-! ## Trade-entry conversation (bot.py lines 373-524)

The `ConversationHandler` states are the integers
`TRANSACTION_GET_ACTION .. TRANSACTION_SELECT_WALLET` plus
`ConversationHandler.END`; `context.user_data` is the per-user scratch
dictionary the handlers write collected fields into. -/

/-- Conversation states of the buy/sell handler (bot.py line 211), with
`CONV_END` standing for `ConversationHandler.END`. -/
inductive TState
  | GET_ACTION
  | GET_SYMBOL
  | GET_UNITS
  | SELECT_WALLET
  | CONV_END
deriving DecidableEq, Repr

/-- Python `float` values as `float()` can produce them: exact rationals
for finite literals (no binary rounding is modelled), plus the infinities
and NaN. -/
inductive PyFloat
  | finite (q : ℚ)
  | inf
  | ninf
  | nan
deriving DecidableEq, Repr

/-- Whether a parsed float is finite. -/
def PyFloat.isFinite : PyFloat → Bool
  | .finite _ => true
  | _ => false

/-- The fields of `context.user_data` the trade-entry conversation
collects. -/
structure TUserData where
  transaction_action : Option String := none
  crypto_symbol : Option String := none
  number_of_units : Option PyFloat := none
deriving DecidableEq, Repr

/-- Maximal run of decimal digits with PEP-515 underscores (an underscore
must sit between two digits): accumulated value, number of digits
consumed, and the unconsumed rest. -/
def lexDigitsGo (acc : Nat) (n : Nat) : List Char → Nat × Nat × List Char
  | [] => (acc, n, [])
  | [c] =>
    if c.isDigit then (10 * acc + (c.toNat - 48), n + 1, []) else (acc, n, [c])
  | c :: d :: cs =>
    if c.isDigit then lexDigitsGo (10 * acc + (c.toNat - 48)) (n + 1) (d :: cs)
    else if c = '_' ∧ d.isDigit then lexDigitsGo (10 * acc + (d.toNat - 48)) (n + 1) cs
    else (acc, n, c :: d :: cs)

/-- A digit run must start with a digit. -/
def lexDigits : List Char → Option (Nat × Nat × List Char)
  | c :: cs => if c.isDigit then some (lexDigitsGo (c.toNat - 48) 1 cs) else none
  | [] => none

/-- The mantissa of a Python float literal: `digits [. [digits]]` or
`. digits`, as a numerator and a count of fractional digits (its value is
`num / 10 ^ scale`), plus the unconsumed rest.  Only `Nat` arithmetic is
used so the parser evaluates inside the kernel. -/
def parseMantissa : List Char → Option (Nat × Nat × List Char)
  | [] => none
  | c :: cs =>
    if c.isDigit then
      match lexDigits (c :: cs) with
      | some (iv, _, r1) =>
        match r1 with
        | '.' :: r2 =>
          match lexDigits r2 with
          | some (fv, m, r3) => some (iv * 10 ^ m + fv, m, r3)
          | none => some (iv, 0, r2)
        | _ => some (iv, 0, r1)
      | none => none
    else if c = '.' then
      match lexDigits cs with
      | some (fv, m, r) => some (fv, m, r)
      | none => none
    else none

/-- The optional exponent part `[eE][+-]?digits`, as (sign, magnitude);
the whole rest must be consumed. -/
def parseExpPart : List Char → Option (Bool × Nat)
  | [] => some (false, 0)
  | c :: cs =>
    if c = 'e' ∨ c = 'E' then
      let signed : Bool × List Char :=
        match cs with
        | '+' :: r => (false, r)
        | '-' :: r => (true, r)
        | r => (false, r)
      match lexDigits signed.2 with
      | some (e, _, []) => some (signed.1, e)
      | _ => none
    else none

/-- A full numeric Python float literal (no sign), exactly consumed, as
the exact rational `mantissa * 10 ^ exponent`. -/
def parseNumeric (cs : List Char) : Option ℚ := do
  let m ← parseMantissa cs
  let e ← parseExpPart m.2.2
  pure (if e.1 then mkRat m.1 (10 ^ (m.2.1 + e.2)) else mkRat (m.1 * 10 ^ e.2) (10 ^ m.2.1))

/-- Python `float(s)`: strip whitespace, optional sign, then either a
case-insensitive `inf`/`infinity`/`nan` or a numeric literal.  Unicode
digits outside ASCII and float underflow/overflow on extreme exponents
are not modelled. -/
def parseFloat (s : String) : Option PyFloat :=
  let cs0 := (pyStrip s).data
  let signed : Bool × List Char :=
    match cs0 with
    | '+' :: r => (false, r)
    | '-' :: r => (true, r)
    | r => (false, r)
  let lower := signed.2.map Char.toLower
  if lower = "inf".data ∨ lower = "infinity".data then
    some (if signed.1 then PyFloat.ninf else PyFloat.inf)
  else if lower = "nan".data then some PyFloat.nan
  else
    match parseNumeric signed.2 with
    | some q => some (PyFloat.finite (if signed.1 then -q else q))
    | none => none

/-- Python `v <= 0` on a float: NaN compares false, `-inf <= 0` is true,
`inf <= 0` is false. -/
def pyLeZero : PyFloat → Bool
  | .finite q => decide (q ≤ 0)
  | .inf => false
  | .ninf => true
  | .nan => false

/-- Whether the AWAITING_UNITS step accepts the text: `float()` parses it
and the `number_of_units <= 0` re-prompt check does not fire. -/
def unitsAccepted (text : String) : Bool :=
  match parseFloat (pyStrip text) with
  | some v => !pyLeZero v
  | none => false

/-- `transaction_get_units` (bot.py lines 427-457): parse
`float(text.strip())`; a parse failure or a value `<= 0` raises
`ValueError`, caught to re-prompt in the same state with nothing stored;
otherwise store the units and move to wallet selection (or end the
conversation when the user has no wallets). -/
def transaction_get_units (text : String) (hasWallets : Bool)
    (ud : TUserData) : TUserData × TState :=
  match parseFloat (pyStrip text) with
  | none => (ud, TState.GET_UNITS)
  | some v =>
    if pyLeZero v then (ud, TState.GET_UNITS)
    else
      let ud' := { ud with number_of_units := some v }
      if hasWallets then (ud', TState.SELECT_WALLET) else (ud', TState.CONV_END)

/-- `transaction_get_symbol` (bot.py lines 410-421): strip and uppercase
the text; on a regex mismatch re-prompt and stay in
`TRANSACTION_GET_SYMBOL`; otherwise store the symbol and advance to
`TRANSACTION_GET_UNITS`. -/
def transaction_get_symbol (text : String) (ud : TUserData) : TUserData × TState :=
  let crypto_symbol := pyUpper (pyStrip text)
  if !reMatchSymbol crypto_symbol then (ud, TState.GET_SYMBOL)
  else ({ ud with crypto_symbol := some crypto_symbol }, TState.GET_UNITS)

/-! ## Position repository (MongoDB collections as explicit state)

`users_collection` is a list of user documents with a unique index on
`telegram_id` (bot.py line 67); `_id` is modelled as a `Nat` assigned from
a counter at insertion.  `find_one` returns the first matching document. -/

/-- A wallet entry as `addwallet_receive` pushes it (bot.py 343-348). -/
structure WalletData where
  wallet_id : String
  sol_wallet_address : String
  sol_balance : ℚ
  created_at : Nat
deriving DecidableEq, Repr

/-- A contract-address entry as `handle_contract_address` pushes it
(bot.py 765-770). -/
structure ContractData where
  contract_id : String
  contract_address : String
  contract_balance : ℚ
  created_at : Nat
deriving DecidableEq, Repr

/-- A user document (bot.py 155-161), with `oid` standing for the
Mongo-assigned `_id`. -/
structure UserRec where
  oid : Nat
  telegram_id : Int
  username : String
  wallets : List WalletData
  contract_addresses : List ContractData
  created_at : Nat
deriving DecidableEq, Repr

/-- The `users` collection plus the id counter. -/
structure UsersDB where
  users : List UserRec
  nextId : Nat
deriving DecidableEq, Repr

/-- `users_collection.find_one({"telegram_id": tid})`. -/
def find_one (db : UsersDB) (tid : Int) : Option UserRec :=
  db.users.find? (fun u => u.telegram_id == tid)

/-- A successful `users_collection.insert_one` of a fresh user document
(bot.py 155-162): `username if username else ""` is applied by the
caller. -/
def insertUser (db : UsersDB) (tid : Int) (uname : String) (now : Nat) : UsersDB :=
  { users := db.users ++
      [{ oid := db.nextId, telegram_id := tid, username := uname,
         wallets := [], contract_addresses := [], created_at := now }],
    nextId := db.nextId + 1 }

/-- `get_or_create_user` (bot.py lines 146-170).  `race`, when present, is
a concurrent first-contact for the same `telegram_id` whose insert commits
between this call's `find_one` and its `insert_one`; the unique index then
makes our `insert_one` raise `DuplicateKeyError`, which the function
catches by re-reading the existing record. -/
def get_or_create_user (tid : Int) (username : Option String) (now : Nat)
    (race : Option (Option String × Nat)) (db : UsersDB) : Option UserRec × UsersDB :=
  match find_one db tid with
  | some user => (some user, db)
  | none =>
    let db1 := match race with
      | some r => insertUser db tid (r.1.getD "") r.2
      | none => db
    if (find_one db1 tid).isSome then
      -- insert_one raises DuplicateKeyError; caught: re-read and return
      (find_one db1 tid, db1)
    else
      let db2 := insertUser db1 tid (username.getD "") now
      (find_one db2 tid, db2)

/-- What `handle_contract_address` replies with. -/
inductive CAReply
  | ignored
  | duplicateWarning
  | added (contract_id : String)
deriving DecidableEq, Repr

/-- `handle_contract_address` (bot.py lines 741-781) on the caller's user
document: strip the message; silently ignore it unless it validates as an
address; warn and change nothing when the address is already in the
user's contract list; otherwise push a new entry with a fresh
`contract_id` and zero balance. -/
def handle_contract_address (rawText : String) (newContractId : String) (now : Nat)
    (user : UserRec) : UserRec × CAReply :=
  let message_text := pyStrip rawText
  if !validate_sol_address message_text then (user, CAReply.ignored)
  else if user.contract_addresses.any (fun c => c.contract_address == message_text) then
    (user, CAReply.duplicateWarning)
  else
    ({ user with contract_addresses :=
        user.contract_addresses ++
          [{ contract_id := newContractId, contract_address := message_text,
             contract_balance := 0, created_at := now }] },
      CAReply.added newContractId)

/-! ## Price fetching (`get_current_prices`, bot.py lines 74 and 90-124)

The CoinMarketCap response is modelled as a parsed JSON value; the HTTP
layer as an outcome: a transport failure (`httpx.RequestError`), a
non-2xx status (`response.raise_for_status()` raising
`httpx.HTTPStatusError`), or a success with a JSON body.  Python
exceptions that the code can raise are modelled explicitly. -/

/-- The Python exceptions relevant to the price path. -/
inductive PyExn
  | typeError
  | keyError
  | runtimeError
deriving DecidableEq, Repr

/-- A parsed JSON value (numbers kept exact over `ℚ`). -/
inductive JVal
  | num (val : ℚ)
  | str (val : String)
  | obj (fields : List (String × JVal))

/-- `d[k]` on a parsed JSON value: `KeyError` when the key is missing,
`TypeError` when the value is not an object. -/
def JVal.getItem : JVal → String → Except PyExn JVal
  | .obj fields, k =>
    match fields.find? (fun f => f.1 == k) with
    | some f => Except.ok f.2
    | none => Except.error PyExn.keyError
  | _, _ => Except.error PyExn.typeError

/-- `k in d` for an object body (the API's top level and `data` entries
are JSON objects). -/
def JVal.hasKey : JVal → String → Bool
  | .obj fields, k => fields.any (fun f => f.1 == k)
  | _, _ => false

/-- `prices[k] = v` on the association-list model of a Python dict:
overwrite an existing key, else append. -/
def setKey (m : List (String × JVal)) (k : String) (v : JVal) : List (String × JVal) :=
  if m.any (fun p => p.1 == k) then
    m.map (fun p => if p.1 == k then (k, v) else p)
  else m ++ [(k, v)]

/-- The outcome of the CoinMarketCap request. -/
inductive HttpOutcome
  | requestError
  | statusError
  | success (body : JVal)

/-- The body of `get_current_prices` (bot.py lines 91-124), without the
`@cached` decorator: `httpx.RequestError` and `httpx.HTTPStatusError` are
caught and yield the empty dict; on success, for each requested symbol
present under `data`, `data[sym]['quote']['USD']['price']` is stored —
those three lookups are outside the `try`'s caught exception types, so a
malformed entry would raise.  Values are stored as-is (no type check). -/
def get_current_prices_body (crypto_symbols : List String) (resp : HttpOutcome) :
    Except PyExn (List (String × JVal)) :=
  match resp with
  | .requestError => Except.ok []
  | .statusError => Except.ok []
  | .success data =>
    if data.hasKey "data" then
      match data.getItem "data" with
      | Except.error e => Except.error e
      | Except.ok dataObj =>
        crypto_symbols.foldlM (fun prices symbol => do
          let upper_symbol := pyUpper symbol
          if dataObj.hasKey upper_symbol then
            let entry ← dataObj.getItem upper_symbol
            let quote ← entry.getItem "quote"
            let usd ← quote.getItem "USD"
            let price ← usd.getItem "price"
            pure (setKey prices upper_symbol price)
          else
            pure prices) []
    else Except.ok []

/-- A Python value in its role as (part of) a cache key. -/
inductive PyKey
  | kstr (s : String)
  | klist (elems : List PyKey)
  | ktuple (elems : List PyKey)

mutual

/-- Whether `hash()` succeeds on the value: strings hash, lists raise
`TypeError: unhashable type: 'list'`, tuples hash iff every element
does. -/
def PyKey.hashable : PyKey → Bool
  | .kstr _ => true
  | .klist _ => false
  | .ktuple xs => PyKey.allHashable xs

/-- `hashable` over the elements of a tuple. -/
def PyKey.allHashable : List PyKey → Bool
  | [] => true
  | x :: xs => x.hashable && PyKey.allHashable xs

end

mutual

/-- Equality of cache keys. -/
def PyKey.beq : PyKey → PyKey → Bool
  | .kstr a, .kstr b => a == b
  | .klist a, .klist b => PyKey.beqList a b
  | .ktuple a, .ktuple b => PyKey.beqList a b
  | _, _ => false

/-- Elementwise equality of key lists. -/
def PyKey.beqList : List PyKey → List PyKey → Bool
  | [], [] => true
  | a :: ta, b :: tb => PyKey.beq a b && PyKey.beqList ta tb
  | _, _ => false

end

/-- `cachetools.keys.hashkey(crypto_symbols)`: a tuple holding the one
positional argument, which is a Python list of strings. -/
def hashkeyOf (crypto_symbols : List String) : PyKey :=
  PyKey.ktuple [PyKey.klist (crypto_symbols.map PyKey.kstr)]

/-- The state of `price_cache = TTLCache(maxsize=100, ttl=60)` plus a
count of upstream HTTP requests actually issued: each entry records its
key, the time it was stored, and whether the cached coroutine object has
already been awaited. -/
structure PriceCacheState where
  entries : List (PyKey × Nat × Bool)
  fetches : Nat

/-- The TTL of `price_cache` in seconds (bot.py line 74). -/
def CACHE_TTL : Nat := 60

/-- An unexpired cache entry for the key, if any. -/
def lookupEntry (entries : List (PyKey × Nat × Bool)) (k : PyKey) (now : Nat) :
    Option (Nat × Bool) :=
  match entries.find? (fun e => PyKey.beq e.1 k) with
  | some e => if now < e.2.1 + CACHE_TTL then some e.2 else none
  | none => none

/-- Mark the entry for the key as awaited. -/
def markAwaited (entries : List (PyKey × Nat × Bool)) (k : PyKey) :
    List (PyKey × Nat × Bool) :=
  entries.map (fun e => if PyKey.beq e.1 k then (e.1, e.2.1, true) else e)

/-- Store a fresh (and, by the time the caller's `await` returns,
awaited) coroutine entry for the key. -/
def setEntry (entries : List (PyKey × Nat × Bool)) (k : PyKey) (now : Nat) :
    List (PyKey × Nat × Bool) :=
  entries ++ [(k, now, true)]

/-- One `await get_current_prices(...)` through the
`@cached(cache=price_cache)` wrapper (bot.py line 90), which wraps the
async function as a plain function over the coroutine it returns:

* the wrapper evaluates `cache[k]` for `k = hashkey(args)`; hashing the
  key hashes its elements, and the argument is a Python list, so this
  raises `TypeError: unhashable type: 'list'` — only `KeyError` is
  caught, so the `TypeError` propagates to the caller;
* were the key hashable: on a miss the wrapper calls the function — which
  just creates a coroutine — stores it and returns it, and the caller's
  `await` then runs the body (one upstream fetch); on an unexpired hit
  the wrapper returns the same coroutine object, and awaiting an
  already-awaited coroutine raises `RuntimeError`. -/
def cached_async_call (k : PyKey) (now : Nat) (st : PriceCacheState)
    (runBody : Unit → Except PyExn (List (String × JVal))) :
    Except PyExn (List (String × JVal)) × PriceCacheState :=
  if !k.hashable then (Except.error PyExn.typeError, st)
  else
    match lookupEntry st.entries k now with
    | some e =>
      if e.2 then (Except.error PyExn.runtimeError, st)
      else (runBody (), { entries := markAwaited st.entries k, fetches := st.fetches + 1 })
    | none =>
      (runBody (), { entries := setEntry st.entries k now, fetches := st.fetches + 1 })

/-- `await get_current_prices(crypto_symbols)` as the callers invoke it
(bot.py lines 90-124 with the decorator of line 90). -/
def get_current_prices (crypto_symbols : List String) (now : Nat) (resp : HttpOutcome)
    (st : PriceCacheState) : Except PyExn (List (String × JVal)) × PriceCacheState :=
  cached_async_call (hashkeyOf crypto_symbols) now st
    (fun _ => get_current_prices_body crypto_symbols resp)

/-- `get_current_price_at_call` (bot.py lines 196-201): a placeholder
that always returns `0.0`; its own docstring says to replace it with an
actual implementation. -/
def get_current_price_at_call (crypto_symbol : String) : ℚ := 0

/-- `log_call` (bot.py lines 172-187): assemble the call document with
`price_at_call` from `get_current_price_at_call` and insert it into the
calls collection. -/
def log_call (user_id : Nat) (crypto_symbol action : String) (number_of_units : ℚ)
    (wallet_id : String) (now : Nat) (calls : List CallRec) : List CallRec :=
  calls ++
    [{ user_id := user_id, crypto_symbol := crypto_symbol, action := action,
       number_of_units := number_of_units, wallet_id := wallet_id,
       price_at_call := get_current_price_at_call crypto_symbol, timestamp := now }]

/-- A healthy CoinMarketCap response body quoting SOL at 100 USD. -/
def goodBody : JVal :=
  JVal.obj [("data", JVal.obj [("SOL",
    JVal.obj [("quote", JVal.obj [("USD", JVal.obj [("price", JVal.num 100)])])])])]

/-- A fresh price cache. -/
def st0 : PriceCacheState := { entries := [], fetches := 0 }

/-! ## Leaderboard ranking (`leaderboard_command`, bot.py lines 609-658)

`user_pnls` is built by iterating the users collection in its stored
order, so the input list order is first-seen order.  Python's
`sorted(user_pnls, key=lambda x: x['pnl'], reverse=True)` is a stable
sort by descending PnL; any stable sort computes the same list, and it is
modelled here by insertion sort over the non-strict descending relation
(on ties the earlier element stays in front).  The display loop then
takes `user_pnls_sorted[:10]`. -/

/-- Descending-PnL order on `(username, pnl)` entries. -/
def lbOrder (a b : String × ℚ) : Prop := b.2 ≤ a.2

instance : DecidableRel lbOrder :=
  fun a b => inferInstanceAs (Decidable (b.2 ≤ a.2))

instance : IsTotal (String × ℚ) lbOrder :=
  ⟨fun a b => le_total b.2 a.2⟩

instance : IsTrans (String × ℚ) lbOrder :=
  ⟨fun _ _ _ h1 h2 => le_trans h2 h1⟩

/-- `user_pnls_sorted = sorted(user_pnls, key=..., reverse=True)`
(bot.py line 641). -/
def leaderboard_ranking (user_pnls : List (String × ℚ)) : List (String × ℚ) :=
  List.insertionSort lbOrder user_pnls

/-- `user_pnls_sorted[:10]`, the entries the leaderboard message shows
(bot.py line 649). -/
def leaderboard_display (user_pnls : List (String × ℚ)) : List (String × ℚ) :=
  (leaderboard_ranking user_pnls).take 10

/-- A concrete BUY call used to instantiate `calculate_profit_spec`. -/
def sampleBuyCall : CallRec :=
  { user_id := 1, crypto_symbol := "SOL", action := "BUY", number_of_units := 2,
    wallet_id := "w1", price_at_call := 50, timestamp := 0 }

/-- An empty `context.user_data`. -/
def ud0 : TUserData := {}

/-- A 44-character string of 43 base58 characters followed by a newline:
accepted by `validate_sol_address` because of `$`'s trailing-newline rule. -/
def newlineAddr : String :=
  ⟨List.replicate 43 '1' ++ ['\n']⟩

/-- An empty users collection. -/
def emptyDB : UsersDB := { users := [], nextId := 0 }

/-- A valid 43-character address made of base58 characters. -/
def sampleAddr : String := ⟨List.replicate 43 '1'⟩

/-- A user who already holds `sampleAddr` in their contract list. -/
def sampleUser : UserRec :=
  { oid := 5, telegram_id := 7, username := "alice", wallets := [],
    contract_addresses :=
      [{ contract_id := "c1", contract_address := sampleAddr,
         contract_balance := 0, created_at := 0 }],
    created_at := 0 }

end CoinBot

namespace CoinBot

/-! ## Theorems -/

/-- C2: for every Call and price mapping, `calculate_profit` returns
`(currentPrice − price_at_call) × units` for BUY, `(price_at_call −
currentPrice) × units` for SELL, and exactly 0 when the call's symbol is
absent from the mapping. -/
theorem calculate_profit_spec (call : CallRec) (current_prices : List (String × ℚ)) :
    (lookupPrice current_prices call.crypto_symbol = none →
      calculate_profit call current_prices = 0) ∧
    (∀ p : ℚ, lookupPrice current_prices call.crypto_symbol = some p →
      (call.action = "BUY" →
        calculate_profit call current_prices =
          (p - call.price_at_call) * call.number_of_units) ∧
      (call.action = "SELL" →
        calculate_profit call current_prices =
          (call.price_at_call - p) * call.number_of_units)) := by
  constructor
  · intro h
    simp [calculate_profit, h]
  · intro p hp
    constructor
    · intro hact
      simp [calculate_profit, hp, hact]
    · intro hact
      simp [calculate_profit, hp, hact]

/-- Witness for C2: the BUY formula and the absent-symbol case evaluated at
concrete inputs via `calculate_profit_spec`. -/
theorem calculate_profit_spec_witness :
    calculate_profit sampleBuyCall [("SOL", 80)] = (80 - 50) * 2 ∧
    calculate_profit sampleBuyCall [] = 0 := by
  constructor
  · exact ((calculate_profit_spec sampleBuyCall [("SOL", 80)]).2 80 (by decide)).1 rfl
  · exact (calculate_profit_spec sampleBuyCall []).1 rfl

/-- C7: in the AWAITING_SYMBOL step the input is stripped and normalized
to uppercase; if the normalized form fails `^[A-Z]{1,5}$` the handler
re-prompts and stays in the same state with `user_data` untouched, and if
it matches the normalized symbol is stored and the conversation advances
to the units step. -/
theorem transaction_get_symbol_spec (text : String) (ud : TUserData) :
    (reMatchSymbol (pyUpper (pyStrip text)) = false →
      transaction_get_symbol text ud = (ud, TState.GET_SYMBOL)) ∧
    (reMatchSymbol (pyUpper (pyStrip text)) = true →
      transaction_get_symbol text ud =
        ({ ud with crypto_symbol := some (pyUpper (pyStrip text)) }, TState.GET_UNITS)) := by
  constructor
  · intro h
    simp [transaction_get_symbol, h]
  · intro h
    simp [transaction_get_symbol, h]

/-- Witness for C7: lowercase `" sol "` is normalized to `"SOL"`, stored
and advances; `"sol123"` is rejected and leaves state and data unchanged. -/
theorem transaction_get_symbol_spec_witness :
    transaction_get_symbol " sol " ud0 =
      ({ ud0 with crypto_symbol := some "SOL" }, TState.GET_UNITS) ∧
    transaction_get_symbol "sol123" ud0 = (ud0, TState.GET_SYMBOL) := by
  constructor
  · have h := (transaction_get_symbol_spec " sol " ud0).2 (by decide)
    rw [(by decide : pyUpper (pyStrip " sol ") = "SOL")] at h
    exact h
  · exact (transaction_get_symbol_spec "sol123" ud0).1 (by decide)

/-- C10 counterexample: 43 base58 characters followed by a final newline
are accepted by `validate_sol_address` (length 44 and Python `$` matches
before a trailing newline) even though not every character is in the
base58 alphabet, refuting the claimed iff. -/
theorem validate_sol_address_newline_counterexample :
    validate_sol_address newlineAddr = true ∧
    newlineAddr.data.all isBase58 = false := by
  constructor
  · decide
  · decide

/-- C10 amended: `validate_sol_address` accepts a string iff its length is
43 or 44 and either every character is base58, or the string is a base58
run followed by one final newline (Python's `$` matches before a trailing
newline).  Both call sites strip their input first, so the newline case is
unreachable from the handlers. -/
theorem validate_sol_address_amended (s : String) :
    validate_sol_address s = true ↔
      ((s.length = 43 ∨ s.length = 44) ∧
        (s.data.all isBase58 = true ∨
          (s.data.getLast? = some '\n' ∧ s.data.dropLast.all isBase58 = true))) := by
  have hlen : s.length = s.data.length := rfl
  constructor
  · intro h
    by_cases hcond : s.length ≠ 43 ∧ s.length ≠ 44
    · rw [validate_sol_address, if_pos hcond] at h
      exact absurd h (by simp)
    · have hl : s.length = 43 ∨ s.length = 44 := by tauto
      rw [validate_sol_address, if_neg hcond] at h
      refine ⟨hl, ?_⟩
      rcases Bool.or_eq_true_iff.mp h with h1 | h2
      · simp only [Bool.and_eq_true] at h1
        exact Or.inl h1.2
      · rcases hg : s.data.getLast? with _ | c
        · simp only [reMatchBase58, hg] at h2
          exact absurd h2 (by simp)
        · simp only [reMatchBase58, hg, Bool.and_eq_true, beq_iff_eq] at h2
          exact Or.inr ⟨by rw [h2.1], h2.2.2⟩
  · rintro ⟨hl, h⟩
    have hcond : ¬(s.length ≠ 43 ∧ s.length ≠ 44) := by tauto
    rw [validate_sol_address, if_neg hcond]
    have hne : 1 ≤ s.data.length := by omega
    rcases h with h | ⟨hg, hd⟩
    · apply Bool.or_eq_true_iff.mpr
      left
      simp only [reMatchBase58, Bool.and_eq_true, decide_eq_true_eq]
      exact ⟨hne, h⟩
    · apply Bool.or_eq_true_iff.mpr
      right
      simp only [reMatchBase58, hg, Bool.and_eq_true, decide_eq_true_eq, beq_iff_eq]
      have hdl : s.data.dropLast.length = s.data.length - 1 := List.length_dropLast _
      have hdne : 1 ≤ s.data.dropLast.length := by omega
      exact ⟨trivial, hdne, hd⟩

/-- C5 counterexample: the input `"inf"` parses to `float('inf')`, passes
the `<= 0` check, is stored as the units and advances the conversation,
although it is not finite — refuting "accepted only if it is finite and
strictly greater than 0". -/
theorem transaction_get_units_accepts_infinite :
    transaction_get_units "inf" true ud0 =
      ({ ud0 with number_of_units := some PyFloat.inf }, TState.SELECT_WALLET) ∧
    PyFloat.inf.isFinite = false := by
  constructor
  · decide
  · decide

/-- C5 amended: in the AWAITING_UNITS step the input is parsed by Python
`float()` and accepted iff the parsed value does not compare `<= 0`
(NaN and `+inf` also pass this check, so finiteness is not required);
any rejected input re-prompts and leaves the session in the same state
with no stored units, so a later valid input is the one recorded. -/
theorem transaction_get_units_amended (text : String) (hasWallets : Bool)
    (ud : TUserData) :
    (unitsAccepted text = false →
      transaction_get_units text hasWallets ud = (ud, TState.GET_UNITS)) ∧
    (∀ v : PyFloat, parseFloat (pyStrip text) = some v → pyLeZero v = false →
      transaction_get_units text hasWallets ud =
        ({ ud with number_of_units := some v },
          if hasWallets then TState.SELECT_WALLET else TState.CONV_END)) := by
  constructor
  · intro h
    unfold unitsAccepted at h
    unfold transaction_get_units
    rcases hp : parseFloat (pyStrip text) with _ | v
    · rfl
    · rw [hp] at h
      have h' : pyLeZero v = true := by simpa using h
      simp [h']
  · intro v hp hle
    unfold transaction_get_units
    rw [hp]
    simp only [hle]
    rcases hasWallets with _ | _
    · simp
    · simp

/-- Helper: `find?` skips a prefix in which nothing matches. -/
theorem find?_append_none {α : Type} (p : α → Bool) (l2 : List α) :
    ∀ l1 : List α, l1.find? p = none → (l1 ++ l2).find? p = l2.find? p := by
  intro l1
  induction l1 with
  | nil => intro _; rfl
  | cons a l ih =>
    intro h
    cases hpa : p a
    · rw [List.find?_cons_of_neg _ (by simp [hpa])] at h
      rw [List.cons_append, List.find?_cons_of_neg _ (by simp [hpa])]
      exact ih h
    · rw [List.find?_cons_of_pos _ hpa] at h
      exact absurd h (by simp)

/-- Helper: after inserting a fresh user for `tid` into a collection that
has no user with `tid`, `find_one` returns exactly the inserted document. -/
theorem find_one_insertUser (db : UsersDB) (tid : Int) (uname : String) (now : Nat)
    (h : find_one db tid = none) :
    find_one (insertUser db tid uname now) tid =
      some { oid := db.nextId, telegram_id := tid, username := uname,
             wallets := [], contract_addresses := [], created_at := now } := by
  have h' : db.users.find? (fun u => u.telegram_id == tid) = none := h
  show (db.users ++
      [({ oid := db.nextId, telegram_id := tid, username := uname,
          wallets := [], contract_addresses := [], created_at := now } : UserRec)]).find?
        (fun u : UserRec => u.telegram_id == tid)
      = some { oid := db.nextId, telegram_id := tid, username := uname,
               wallets := [], contract_addresses := [], created_at := now }
  rw [find?_append_none _ _ _ h']
  exact List.find?_cons_of_pos _ (by simp)

/-- Helper: `get_or_create_user` when the user already exists. -/
theorem get_or_create_user_found (tid : Int) (username : Option String) (now : Nat)
    (race : Option (Option String × Nat)) (db : UsersDB) (u0 : UserRec)
    (h : find_one db tid = some u0) :
    get_or_create_user tid username now race db = (some u0, db) := by
  simp [get_or_create_user, h]

/-- Helper: `get_or_create_user` when the user is absent and no concurrent
creation interferes: one document is inserted and returned. -/
theorem get_or_create_user_absent (tid : Int) (username : Option String) (now : Nat)
    (db : UsersDB) (h : find_one db tid = none) :
    get_or_create_user tid username now none db =
      (some { oid := db.nextId, telegram_id := tid, username := username.getD "",
              wallets := [], contract_addresses := [], created_at := now },
        insertUser db tid (username.getD "") now) := by
  have hf := find_one_insertUser db tid (username.getD "") now h
  simp [get_or_create_user, h, hf]

/-- Helper: `get_or_create_user` when the user is absent but a concurrent
first-contact commits first: the raced document is re-read and returned,
and this call inserts nothing. -/
theorem get_or_create_user_raced (tid : Int) (username : Option String) (now : Nat)
    (r : Option String × Nat) (db : UsersDB) (h : find_one db tid = none) :
    get_or_create_user tid username now (some r) db =
      (some { oid := db.nextId, telegram_id := tid, username := r.1.getD "",
              wallets := [], contract_addresses := [], created_at := r.2 },
        insertUser db tid (r.1.getD "") r.2) := by
  have hf := find_one_insertUser db tid (r.1.getD "") r.2 h
  simp [get_or_create_user, h, hf]

/-- C4: `get_or_create_user` is idempotent: the first call (with or
without a concurrent first-contact committing between its read and its
insert) returns some user record, a second call with the same
`telegram_id` returns that same record (hence the identical `_id`) and
leaves the collection untouched, and when the id was absent the two
operations together insert exactly one document (the `DuplicateKeyError`
of the raced insert is absorbed by re-reading, not surfaced). -/
theorem get_or_create_user_idempotent (tid : Int) (u1 u2 : Option String)
    (n1 n2 : Nat) (race : Option (Option String × Nat)) (db : UsersDB) :
    ∃ u : UserRec,
      (get_or_create_user tid u1 n1 race db).1 = some u ∧
      (get_or_create_user tid u2 n2 none (get_or_create_user tid u1 n1 race db).2).1
        = some u ∧
      (get_or_create_user tid u2 n2 none (get_or_create_user tid u1 n1 race db).2).2
        = (get_or_create_user tid u1 n1 race db).2 ∧
      (find_one db tid = none →
        (get_or_create_user tid u1 n1 race db).2.users.length = db.users.length + 1) := by
  rcases h : find_one db tid with _ | u0
  · rcases race with _ | r
    · have e1 := get_or_create_user_absent tid u1 n1 db h
      have hf := find_one_insertUser db tid (u1.getD "") n1 h
      have e2 := get_or_create_user_found tid u2 n2 none
        (insertUser db tid (u1.getD "") n1) _ hf
      refine ⟨{ oid := db.nextId, telegram_id := tid, username := u1.getD "",
                wallets := [], contract_addresses := [], created_at := n1 },
              ?_, ?_, ?_, ?_⟩
      · rw [e1]
      · rw [e1, e2]
      · rw [e1, e2]
      · intro _
        rw [e1]
        simp [insertUser]
    · have e1 := get_or_create_user_raced tid u1 n1 r db h
      have hf := find_one_insertUser db tid (r.1.getD "") r.2 h
      have e2 := get_or_create_user_found tid u2 n2 none
        (insertUser db tid (r.1.getD "") r.2) _ hf
      refine ⟨{ oid := db.nextId, telegram_id := tid, username := r.1.getD "",
                wallets := [], contract_addresses := [], created_at := r.2 },
              ?_, ?_, ?_, ?_⟩
      · rw [e1]
      · rw [e1, e2]
      · rw [e1, e2]
      · intro _
        rw [e1]
        simp [insertUser]
  · have e1 := get_or_create_user_found tid u1 n1 race db u0 h
    have e2 := get_or_create_user_found tid u2 n2 none db u0 h
    refine ⟨u0, ?_, ?_, ?_, ?_⟩
    · rw [e1]
    · rw [e1, e2]
    · rw [e1, e2]
    · intro habs
      exact absurd habs (by simp)

/-- Witness for C4: on an empty collection, with a raced concurrent
creation, both calls return the record the race inserted, the state is
unchanged by the second call, and exactly one document was created. -/
theorem get_or_create_user_idempotent_witness :
    ∃ u : UserRec,
      (get_or_create_user 7 (some "alice") 1 (some (some "carol", 0)) emptyDB).1 = some u ∧
      (get_or_create_user 7 (some "bob") 2 none
        (get_or_create_user 7 (some "alice") 1 (some (some "carol", 0)) emptyDB).2).1
        = some u ∧
      (get_or_create_user 7 (some "bob") 2 none
        (get_or_create_user 7 (some "alice") 1 (some (some "carol", 0)) emptyDB).2).2
        = (get_or_create_user 7 (some "alice") 1 (some (some "carol", 0)) emptyDB).2 ∧
      (find_one emptyDB 7 = none →
        (get_or_create_user 7 (some "alice") 1 (some (some "carol", 0)) emptyDB).2.users.length
          = emptyDB.users.length + 1) :=
  get_or_create_user_idempotent 7 (some "alice") (some "bob") 1 2
    (some (some "carol", 0)) emptyDB

/-- C6: inserting a contract address already present in the user's list is
a no-op answered with the duplicate warning, and the handler preserves
the no-duplicate-addresses invariant of the contract list. -/
theorem handle_contract_address_no_duplicate (rawText newContractId : String)
    (now : Nat) (user : UserRec) :
    (validate_sol_address (pyStrip rawText) = true →
      user.contract_addresses.any
          (fun c => c.contract_address == pyStrip rawText) = true →
      handle_contract_address rawText newContractId now user
        = (user, CAReply.duplicateWarning)) ∧
    ((user.contract_addresses.map (fun c => c.contract_address)).Nodup →
      ((handle_contract_address rawText newContractId now user).1.contract_addresses.map
          (fun c => c.contract_address)).Nodup) := by
  constructor
  · intro hv hdup
    simp [handle_contract_address, hv, hdup]
  · intro hnd
    rcases hv : validate_sol_address (pyStrip rawText)
    · simp [handle_contract_address, hv, hnd]
    · rcases hdup : user.contract_addresses.any
          (fun c => c.contract_address == pyStrip rawText)
      · have hnotmem : pyStrip rawText ∉
            user.contract_addresses.map (fun c => c.contract_address) := by
          intro hmem
          rcases List.mem_map.mp hmem with ⟨c, hc, hceq⟩
          have := List.any_eq_false.mp hdup c hc
          simp [hceq] at this
        have hstep : handle_contract_address rawText newContractId now user
            = ({ user with contract_addresses :=
                  user.contract_addresses ++
                    [{ contract_id := newContractId, contract_address := pyStrip rawText,
                       contract_balance := 0, created_at := now }] },
                CAReply.added newContractId) := by
          simp [handle_contract_address, hv, hdup]
        rw [hstep]
        show (List.map (fun c => c.contract_address)
            (user.contract_addresses ++
              [{ contract_id := newContractId, contract_address := pyStrip rawText,
                 contract_balance := 0, created_at := now }])).Nodup
        rw [List.map_append, List.map_cons, List.map_nil]
        refine List.Nodup.append hnd (List.nodup_singleton _) ?_
        intro a ha hb
        have : a = pyStrip rawText := by simpa using hb
        rw [this] at ha
        exact hnotmem ha
      · simp [handle_contract_address, hv, hdup, hnd]

/-- Witness for C6: sending `sampleAddr` again to the user who already
holds it warns and changes nothing, and the resulting contract list still
has no duplicate address. -/
theorem handle_contract_address_no_duplicate_witness :
    handle_contract_address sampleAddr "c2" 9 sampleUser
      = (sampleUser, CAReply.duplicateWarning) ∧
    ((handle_contract_address sampleAddr "c2" 9 sampleUser).1.contract_addresses.map
        (fun c => c.contract_address)).Nodup := by
  constructor
  · exact (handle_contract_address_no_duplicate sampleAddr "c2" 9 sampleUser).1
      (by decide) (by decide)
  · exact (handle_contract_address_no_duplicate sampleAddr "c2" 9 sampleUser).2
      (by decide)

/-- C3 evidence: even with a perfectly healthy upstream, the decorated
`get_current_prices` raises `TypeError` to its caller — the cache wrapper
hashes a key containing the list argument before anything else runs —
while the undecorated body does satisfy the contract (empty dict on
transport or HTTP-status failure, the resolved mapping on success). -/
theorem get_current_prices_always_raises :
    (get_current_prices ["SOL"] 0 (HttpOutcome.success goodBody) st0).1
      = Except.error PyExn.typeError ∧
    get_current_prices_body ["SOL"] (HttpOutcome.success goodBody)
      = Except.ok [("SOL", JVal.num 100)] ∧
    get_current_prices_body ["SOL"] HttpOutcome.requestError = Except.ok [] ∧
    get_current_prices_body ["SOL"] HttpOutcome.statusError = Except.ok [] :=
  ⟨rfl, rfl, rfl, rfl⟩

/-- C9 evidence: two requests for the identical symbol set at the same
instant (well inside any TTL window) each raise `TypeError` before
touching the cache, and no upstream fetch at all is issued — there is no
single-flight sharing, and no caller ever observes a result. -/
theorem price_cache_no_single_flight :
    (get_current_prices ["SOL"] 0 (HttpOutcome.success goodBody) st0).2.fetches = 0 ∧
    (get_current_prices ["SOL"] 0 (HttpOutcome.success goodBody)
        (get_current_prices ["SOL"] 0 (HttpOutcome.success goodBody) st0).2).1
      = Except.error PyExn.typeError ∧
    (get_current_prices ["SOL"] 0 (HttpOutcome.success goodBody)
        (get_current_prices ["SOL"] 0 (HttpOutcome.success goodBody) st0).2).2.fetches
      = 0 :=
  ⟨rfl, rfl, rfl⟩

/-- C1 evidence: committing a BUY of 2 SOL logs a Call whose
`price_at_call` is the placeholder value 0, even though the repository's
own price fetch resolves SOL to 100 at that moment — the persisted
`price_at_call` is not the fetched current price. -/
theorem log_call_persists_placeholder_price :
    log_call 1 "SOL" "BUY" 2 "w1" 99 []
      = [{ user_id := 1, crypto_symbol := "SOL", action := "BUY",
           number_of_units := 2, wallet_id := "w1", price_at_call := 0,
           timestamp := 99 }] ∧
    get_current_prices_body ["SOL"] (HttpOutcome.success goodBody)
      = Except.ok [("SOL", JVal.num 100)] ∧
    (0 : ℚ) ≠ 100 :=
  ⟨rfl, rfl, by decide⟩

/-- Helper: inserting an entry into a list with `lbOrder` keeps the
entries of any fixed PnL value in order; the inserted entry goes in front
of its own PnL class (elements skipped by the insertion have a strictly
larger PnL). -/
theorem filter_orderedInsert (q : ℚ) (a : String × ℚ) (l : List (String × ℚ)) :
    (List.orderedInsert lbOrder a l).filter (fun e => decide (e.2 = q))
      = if a.2 = q then a :: l.filter (fun e => decide (e.2 = q))
        else l.filter (fun e => decide (e.2 = q)) := by
  induction l with
  | nil =>
    by_cases ha : a.2 = q <;> simp [List.orderedInsert, ha]
  | cons b t ih =>
    rw [List.orderedInsert]
    by_cases hr : lbOrder a b
    · rw [if_pos hr]
      by_cases ha : a.2 = q <;> simp [List.filter_cons, ha]
    · rw [if_neg hr]
      by_cases ha : a.2 = q
      · have hbq : ¬b.2 = q := by
          intro hbq
          exact hr (by rw [lbOrder, hbq, ha])
        simp [List.filter_cons, hbq, ih, ha]
      · simp [List.filter_cons, ih, ha]

/-- Helper: insertion sort with `lbOrder` is stable: the subsequence of
entries holding any fixed PnL value is unchanged. -/
theorem filter_insertionSort (q : ℚ) (l : List (String × ℚ)) :
    (List.insertionSort lbOrder l).filter (fun e => decide (e.2 = q))
      = l.filter (fun e => decide (e.2 = q)) := by
  induction l with
  | nil => rfl
  | cons a t ih =>
    rw [List.insertionSort, filter_orderedInsert]
    by_cases ha : a.2 = q
    · simp [List.filter_cons, ha, ih]
    · simp [List.filter_cons, ha, ih]

/-- C8: the leaderboard ranking is sorted in descending order of total
PnL; entries with equal totals keep their first-seen input order (the
subsequence at any fixed PnL value equals the input's); and the displayed
sequence is the ranking truncated to the top 10. -/
theorem leaderboard_spec (user_pnls : List (String × ℚ)) :
    List.Sorted lbOrder (leaderboard_ranking user_pnls) ∧
    (∀ q : ℚ, (leaderboard_ranking user_pnls).filter (fun e => decide (e.2 = q))
        = user_pnls.filter (fun e => decide (e.2 = q))) ∧
    leaderboard_display user_pnls = (leaderboard_ranking user_pnls).take 10 ∧
    (leaderboard_display user_pnls).length ≤ 10 := by
  refine ⟨List.sorted_insertionSort lbOrder user_pnls,
    fun q => filter_insertionSort q user_pnls, rfl, ?_⟩
  exact List.length_take_le 10 _

/-- Witness for C8 (the spec's own example): users A (+50), B (−10),
C (+50) rank as A, C, B — A and C before B, in first-seen order. -/
theorem leaderboard_spec_witness :
    leaderboard_display [("A", 50), ("B", -10), ("C", 50)]
      = [("A", 50), ("C", 50), ("B", -10)] ∧
    (leaderboard_display [("A", 50), ("B", -10), ("C", 50)]).length ≤ 10 := by
  refine ⟨by decide, (leaderboard_spec [("A", 50), ("B", -10), ("C", 50)]).2.2.2⟩

/-- Witness for C5 (the spec's own example): invalid `"-5"` re-prompts and
stores nothing, then valid `"3"` stores units 3 and advances. -/
theorem transaction_get_units_amended_witness :
    transaction_get_units "-5" true ud0 = (ud0, TState.GET_UNITS) ∧
    transaction_get_units "3" true ud0 =
      ({ ud0 with number_of_units := some (PyFloat.finite 3) }, TState.SELECT_WALLET) := by
  constructor
  · exact (transaction_get_units_amended "-5" true ud0).1 (by decide)
  · have h := (transaction_get_units_amended "3" true ud0).2
      (PyFloat.finite 3) (by decide) (by decide)
    simpa using h

end CoinBot
